import Mathlib

/-!
# Shallow embedding of the Betrusted SoC control plane (betrusted-soc.py)

The source is a Migen/LiteX SoC description.  Combinational assignments
(`self.comb += x.eq(e)`) become pure Lean functions of the current register
values; synchronous blocks (`self.sync += ...`) become step functions
`state → inputs → state`, with the convention that the value computed from
cycle-`t` inputs is the register value observed at cycle `t+1` (standard RTL
registered semantics).  Multi-bit register values are `Nat`, truncated with
`% 2^w` where the width matters; single wires are `Bool`.

Migen/LiteX library primitives used by the source (CSRStorage, CSRStatus,
MultiReg, EventSourcePulse) are part of the HDL framework, not of this
repository; where their behaviour decides a claim they are modelled from the
specification's description of them, and each such definition carries a doc
comment saying so.
-/

namespace BetrustedSoC

/-! ## WarmBoot (betrusted-soc.py lines 295-304)

`ctrl` is an 8-bit CSRStorage field.  `do_reset` is driven by a single
combinational assignment:

    self.do_reset.eq(self.ctrl.storage[2] & self.ctrl.storage[3] & ~self.ctrl.storage[4]
              & self.ctrl.storage[5] & ~self.ctrl.storage[6] & self.ctrl.storage[7])
-/

/-- Combinational `do_reset` output of the `WarmBoot` module, as a function of
the current 8-bit `ctrl` storage value.  `ctrl.storage[i]` is bit `i`. -/
def do_reset (ctrl : Nat) : Bool :=
  ctrl.testBit 2 && ctrl.testBit 3 && !ctrl.testBit 4
    && ctrl.testBit 5 && !ctrl.testBit 6 && ctrl.testBit 7

/-! ## BtPower (betrusted-soc.py lines 320-342)

The `power` CSRStorage(8) packs its fields in declaration order from bit 0:
audio@0, self@1, ec_snoop@2, state@3:4 (2 bits), noisebias@5, noise@6:7
(2 bits).  Reset values: `self` and `state` carry `reset=1`; every other
field has the LiteX default reset of 0, so the whole register resets to
`0b00001010`. -/

/-- Field `audio` (bit 0) of the power register value. -/
def field_audio (v : Nat) : Nat := v % 2

/-- Field `self` (bit 1) of the power register value. -/
def field_self (v : Nat) : Nat := v / 2 % 2

/-- Field `ec_snoop` (bit 2) of the power register value. -/
def field_ec_snoop (v : Nat) : Nat := v / 4 % 2

/-- Field `state` (2 bits, bits 3:4) of the power register value. -/
def field_state (v : Nat) : Nat := v / 8 % 4

/-- Field `noisebias` (bit 5) of the power register value. -/
def field_noisebias (v : Nat) : Nat := v / 32 % 2

/-- Field `noise` (2 bits, bits 6:7) of the power register value. -/
def field_noise (v : Nat) : Nat := v / 64 % 4

/-- Reset value of the `power` CSRStorage: `self` (bit 1) resets to 1 and
`state` (bits 3:4) resets to 0b01; all other fields reset to 0. -/
def power_reset : Nat := 1 * 2 + 1 * 8

/-- Combinational drive of the `pwr_s0` pad:
`pads.pwr_s0.eq(self.power.fields.state[0] & ~ResetSignal())`. -/
def pwr_s0 (v : Nat) (rst : Bool) : Bool := (field_state v).testBit 0 && !rst

/-- Combinational drive of the `pwr_s1` pad:
`pads.pwr_s1.eq(self.power.fields.state[1])` (not gated by reset). -/
def pwr_s1 (v : Nat) : Bool := (field_state v).testBit 1

/-- Combinational drive of the `audio_on` pad: `pads.audio_on.eq(self.power.fields.audio)`. -/
def audio_on (v : Nat) : Bool := field_audio v = 1

/-- Combinational drive of the `fpga_sys_on` pad: `pads.fpga_sys_on.eq(self.power.fields.self)`. -/
def fpga_sys_on (v : Nat) : Bool := field_self v = 1

/-- Combinational drive of the `allow_up5k_n` pad:
`pads.allow_up5k_n.eq(~self.power.fields.ec_snoop)`. -/
def allow_up5k_n (v : Nat) : Bool := !(field_ec_snoop v = 1 : Bool)

/-- Combinational drive of the `noisebias_on` pad: `pads.noisebias_on.eq(self.power.fields.noisebias)`. -/
def noisebias_on (v : Nat) : Bool := field_noisebias v = 1

/-! ## CRG (betrusted-soc.py lines 202-293)

`self._mmcm_drdy = CSRStatus()` declares the DRP ready flag with no `reset`
argument; the LiteX `CSRStatus.__init__(self, size=1, reset=0, ...)` default
gives its status signal a reset value of 0.  The flag is driven by one
synchronous block:

    If(self._mmcm_read.re | self._mmcm_write.re,
       self._mmcm_drdy.status.eq(0)
       ).Elif(mmcm_drdy,
              self._mmcm_drdy.status.eq(1))

and the two clock-domain resets are driven by

    AsyncResetSynchronizer(self.cd_sys, rst | ~pll_locked),
    AsyncResetSynchronizer(self.cd_spi, rst | ~pll_locked)
-/

/-- Reset value of the `_mmcm_drdy` CSRStatus: the source passes no `reset`
argument, so the LiteX default `reset=0` applies and the status signal comes
out of reset at 0. -/
def mmcm_drdy_reset : Bool := false

/-- One sys-clock step of the `_mmcm_drdy` status register.  `strobe` is
`_mmcm_read.re | _mmcm_write.re` (a read or write request this cycle) and
`done` is the MMCM's `DRDY` completion output this cycle; the result is the
register value observed on the next cycle. -/
def drdy_step (drdy strobe done : Bool) : Bool :=
  if strobe then false else if done then true else drdy

/-- Run the `_mmcm_drdy` register over a list of per-cycle
(strobe, completion) input pairs. -/
def drdy_run (drdy : Bool) : List (Bool × Bool) → Bool
  | [] => drdy
  | (s, m) :: rest => drdy_run (drdy_step drdy s m) rest

/-- Combinational reset of the `sys` clock domain:
`AsyncResetSynchronizer(self.cd_sys, rst | ~pll_locked)`. -/
def cd_sys_rst (rst pll_locked : Bool) : Bool := rst || !pll_locked

/-- Combinational reset of the `spi` clock domain:
`AsyncResetSynchronizer(self.cd_spi, rst | ~pll_locked)`. -/
def cd_spi_rst (rst pll_locked : Bool) : Bool := rst || !pll_locked

/-! ## BtEvents (betrusted-soc.py lines 306-318) and the RisingPulse policy

`self.ev.com_int = EventSourcePulse()` wires a rising-edge event source to
the synchronized `com_irq` line.  `EventSourcePulse` itself is LiteX library
code outside src/, so its pending-flag behaviour is modelled from the spec. -/

/-- State of one RisingPulse event source: the latched `pending` flag and
the previous cycle's synchronized trigger value (for edge detection). -/
structure PulseSource where
  pending : Bool
  last : Bool
  deriving DecidableEq

/-- Modelled from the spec: one clock step of a `RisingPulse` event source
(`EventSourcePulse` is LiteX code outside src/).  Spec §4.2: "transition
Idle → Pending on any detected 0→1 transition of the synchronized signal;
stays Pending regardless of further transitions; transition Pending → Idle
only on explicit software clear".  `trigger` is the synchronized signal this
cycle, `clear` the software write-to-clear strobe this cycle. -/
def pulse_step (s : PulseSource) (trigger clear : Bool) : PulseSource :=
  { pending := (s.pending && !clear) || (trigger && !s.last),
    last := trigger }

/-- Power-on state of a pulse event source: nothing pending, trigger low. -/
def pulse_init : PulseSource := ⟨false, false⟩

/-- A CSR read of the pending bit: returns the flag and leaves the event
source state untouched (reads have no side effect on event state). -/
def pulse_read (s : PulseSource) : Bool × PulseSource := (s.pending, s)

/-- Number of cycles at which the pending flag newly rises (goes 0→1) when
the source is fed the given per-cycle trigger values with no software
clears. -/
def pulse_setCount (s : PulseSource) : List Bool → Nat
  | [] => 0
  | t :: rest =>
    (if !s.pending && (pulse_step s t false).pending then 1 else 0) +
      pulse_setCount (pulse_step s t false) rest

/-! ## Power register as a bus target (claim C8)

`self.power = CSRStorage(8, ...)` and nothing in BtPower's comb/sync blocks
drives `power.storage` or `power.fields`: the CPU bus is the register's only
writer and its outputs are consumed combinationally. -/

/-- A CPU bus operation on the power register. -/
inductive PowerOp where
  | write (v : Nat)
  | read

/-- Modelled from the spec: effect of one CPU bus operation on the stored
8-bit power value (LiteX `CSRStorage` is outside src/; spec §4.1: "writes to
plain storage fields persist until overwritten", §3: "Mutated only by CPU
register writes; read back verbatim").  A write stores the value truncated
to 8 bits; a read leaves the state unchanged.  No other transition exists:
the source gives the register no hardware writer. -/
def power_apply : Nat → PowerOp → Nat
  | _, .write v => v % 2 ^ 8
  | s, .read => s

/-- Value returned by a CPU read of the power register: the stored value. -/
def power_readback (s : Nat) : Nat := s

/-- Run a sequence of CPU bus operations against the power register. -/
def power_run (s : Nat) : List PowerOp → Nat
  | [] => s
  | op :: rest => power_run (power_apply s op) rest

/-! ## Synchronizer fabric (claim C9)

`MultiReg(com, com_int)`, `MultiReg(rtc, rtc_int)` (lines 315-316) and
`MultiReg(gpio_in, self.input.status)` (line 367) instantiate migen's
default two-stage synchronizer; the event triggers are then driven
combinationally from the synchronized copies, never from the raw pins
(lines 317-318 and 382). -/

/-- Modelled from the spec: a two-stage synchronizer register chain (migen's
`MultiReg`, depth `n=2` by default, is outside src/; spec §4.3: "Depth is at
least two bus-domain clock cycles").  `s1` is the stage sampling the raw
input, `s2` the stage feeding bus-domain logic. -/
structure Sync2 (α : Type) where
  s1 : α
  s2 : α

/-- One destination-domain clock step of the two-stage synchronizer. -/
def sync2_step {α : Type} (st : Sync2 α) (input : α) : Sync2 α := ⟨input, st.s1⟩

/-- State of the synchronizer after `t` clock cycles, fed the per-cycle raw
input trace `input` (input `input t` is sampled at the edge ending cycle `t`). -/
def sync2_run {α : Type} (init : Sync2 α) (input : Nat → α) : Nat → Sync2 α
  | 0 => init
  | t + 1 => sync2_step (sync2_run init input t) (input t)

/-- Bus-domain-visible output of the synchronizer. -/
def sync2_out {α : Type} (st : Sync2 α) : α := st.s2

/-- Trigger of the `com_int` event source at cycle `t`:
`self.ev.com_int.trigger.eq(com_int)` where `com_int` is the `MultiReg`
output for the raw `com_irq` pin trace. -/
def com_int_trigger (init : Sync2 Bool) (com : Nat → Bool) (t : Nat) : Bool :=
  sync2_out (sync2_run init com t)

/-- Trigger of the `rtc_int` event source at cycle `t`, the `MultiReg`
output for the raw `rtc_irq` pin trace. -/
def rtc_int_trigger (init : Sync2 Bool) (rtc : Nat → Bool) (t : Nat) : Bool :=
  sync2_out (sync2_run init rtc t)

/-- GPIO `input` CSRStatus value at cycle `t`:
`MultiReg(gpio_in, self.input.status)` applied to the raw pin-vector trace
(the whole vector is one machine word, sampled atomically by the model). -/
def gpio_input_status_trace (init : Sync2 Nat) (pins : Nat → Nat) (t : Nat) : Nat :=
  sync2_out (sync2_run init pins t)

/-! ## BtGpio interrupt plumbing (claim C10)

`self.intena = CSRStatus(...)` and `self.intpol = CSRStatus(...)` (lines
364-365) are declared as status registers and no comb or sync statement in
BtGpio ever drives `intena.status` or `intpol.status`; the per-bit event
trigger is `self.input.status[i] ^ self.intpol.status[i]` (line 382). -/

/-- Bus-visible GPIO register state: the two synchronizer stages on the pins
(`input.status` is the second stage) and the two undriven status registers. -/
structure GpioState where
  sync1 : Nat
  input_status : Nat
  intena_status : Nat
  intpol_status : Nat
  deriving DecidableEq

/-- A CPU bus operation aimed at the GPIO interrupt-control registers. -/
inductive GpioOp where
  | none
  | write_intena (v : Nat)
  | write_intpol (v : Nat)

/-- One bus-clock step of the GPIO register state given the raw pin vector
`pins` and the CPU operation of the cycle.  The synchronizer stages advance;
`intena.status` and `intpol.status` are unchanged on every branch: the
source drives them with nothing, and they are CSRStatus registers, for which
CPU writes are ignored (modelled from the spec, §4.1: "status fields ignore
writes"; LiteX CSRStatus is outside src/). -/
def gpio_step (s : GpioState) (pins : Nat) : GpioOp → GpioState
  | .none => ⟨pins, s.sync1, s.intena_status, s.intpol_status⟩
  | .write_intena _ => ⟨pins, s.sync1, s.intena_status, s.intpol_status⟩
  | .write_intpol _ => ⟨pins, s.sync1, s.intena_status, s.intpol_status⟩

/-- Power-on GPIO state: every register resets to 0 (no `reset` argument is
passed to any of these CSRs, so the LiteX default of 0 applies). -/
def gpio_init : GpioState := ⟨0, 0, 0, 0⟩

/-- States the GPIO block can reach from power-on under any pin activity and
any sequence of CPU operations. -/
inductive GpioReachable : GpioState → Prop
  | init : GpioReachable gpio_init
  | step (s : GpioState) (pins : Nat) (op : GpioOp) :
      GpioReachable s → GpioReachable (gpio_step s pins op)

/-- Event trigger of GPIO bit `i`:
`getattr(self.ev, "gpioint" + str(i)).trigger.eq(self.input.status[i] ^ self.intpol.status[i])`. -/
def gpio_trigger (s : GpioState) (i : Nat) : Bool :=
  s.input_status.testBit i ^^ s.intpol_status.testBit i

/-- While the ready register is low, cycles that report no MMCM completion
leave it low, whatever the strobe input does. -/
lemma drdy_run_no_completion (l : List (Bool × Bool))
    (h : ∀ p ∈ l, p.2 = false) : drdy_run false l = false := by
  induction l with
  | nil => rfl
  | cons p rest ih =>
    have hp : p.2 = false := h p (List.mem_cons_self p rest)
    have hrest : ∀ q ∈ rest, q.2 = false := fun q hq => h q (List.mem_cons_of_mem p hq)
    obtain ⟨s, m⟩ := p
    cases s <;> simp_all [drdy_run, drdy_step]

end BetrustedSoC

namespace BetrustedSoC

/-- A pulse source with the trigger seen low keeps its state across cycles
whose trigger is low and which carry no software clear. -/
lemma pulse_step_low_idle (p : Bool) :
    pulse_step ⟨p, false⟩ false false = ⟨p, false⟩ := by
  simp [pulse_step]

/-- Leading low-trigger cycles contribute no pending assertions and leave
the source state unchanged. -/
lemma pulse_setCount_leading_low (a : Nat) (p : Bool) (l : List Bool) :
    pulse_setCount ⟨p, false⟩ (List.replicate a false ++ l) =
      pulse_setCount ⟨p, false⟩ l := by
  induction a with
  | zero => rfl
  | succ k ih =>
    rw [List.replicate_succ, List.cons_append]
    simpa [pulse_setCount, pulse_step] using ih

/-- Holding the trigger high while the flag is already pending contributes
no further pending assertions. -/
lemma pulse_setCount_high_while_pending (m : Nat) (l : List Bool) :
    pulse_setCount ⟨true, true⟩ (List.replicate m true ++ l) =
      pulse_setCount ⟨true, true⟩ l := by
  induction m with
  | zero => rfl
  | succ k ih =>
    rw [List.replicate_succ, List.cons_append]
    simpa [pulse_setCount, pulse_step] using ih

/-- Once pending, trailing low-trigger cycles contribute no further pending
assertions. -/
lemma pulse_setCount_pending_tail_low (b : Nat) (lst : Bool) :
    pulse_setCount ⟨true, lst⟩ (List.replicate b false) = 0 := by
  induction b generalizing lst with
  | zero => rfl
  | succ k ih =>
    rw [List.replicate_succ]
    simpa [pulse_setCount, pulse_step] using ih false

/-- The power register is unchanged by any number of CPU reads. -/
lemma power_run_reads (n s : Nat) : power_run s (List.replicate n .read) = s := by
  induction n with
  | zero => rfl
  | succ k ih =>
    rw [List.replicate_succ]
    simpa [power_run, power_apply] using ih

/-- C1: the warm-reboot `do_reset` output is asserted for exactly the ctrl
values whose bits 2,3,5,7 are 1 and bits 4,6 are 0, with bits 0 and 1
unconstrained; in particular 0xAC asserts it while 0xBC and 0x00 do not, and
`do_reset` is a pure (state-free) function of the current ctrl value, so it
depends only on bits 2-7. -/
theorem c1_do_reset_pattern :
    (∀ v : Nat,
      do_reset v = true ↔
        (v.testBit 2 = true ∧ v.testBit 3 = true ∧ v.testBit 4 = false ∧
         v.testBit 5 = true ∧ v.testBit 6 = false ∧ v.testBit 7 = true)) ∧
    do_reset 0xAC = true ∧ do_reset 0xBC = false ∧ do_reset 0x00 = false ∧
    (∀ v : Nat, do_reset (v ||| 3) = do_reset v) := by
  refine ⟨?_, by decide, by decide, by decide, ?_⟩
  · intro v
    simp only [do_reset, Bool.and_eq_true, Bool.not_eq_true']
    tauto
  · intro v
    simp [do_reset, Nat.testBit_or,
      show Nat.testBit 3 2 = false by decide, show Nat.testBit 3 3 = false by decide,
      show Nat.testBit 3 4 = false by decide, show Nat.testBit 3 5 = false by decide,
      show Nat.testBit 3 6 = false by decide, show Nat.testBit 3 7 = false by decide]

/-- C3: immediately after power-on/reset, before any CPU write, the Power
register holds its reset value, whose fields read audio=0, self=1,
ec_snoop=0, state=0b01, noisebias=0, noise=0b00; and once the global reset
deasserts, `pwr_s0` is already asserted with no software action. -/
theorem c3_power_reset_fields :
    field_audio power_reset = 0 ∧
    field_self power_reset = 1 ∧
    field_ec_snoop power_reset = 0 ∧
    field_state power_reset = 0b01 ∧
    field_noisebias power_reset = 0 ∧
    field_noise power_reset = 0b00 ∧
    pwr_s0 power_reset false = true := by
  decide

/-- C4: for every stored power-register value, while the global reset is
asserted `pwr_s0` is forced to 0 regardless of the state field; when reset is
deasserted `pwr_s0` equals bit 0 of the state field (= bit 3 of the
register) and `pwr_s1` equals bit 1 of the state field (= bit 4 of the
register), ungated by reset. -/
theorem c4_pwr_s0_reset_gated :
    ∀ v : Nat,
      pwr_s0 v true = false ∧
      pwr_s0 v false = v.testBit 3 ∧
      pwr_s1 v = v.testBit 4 := by
  intro v
  refine ⟨by simp [pwr_s0], ?_, ?_⟩
  · simp only [pwr_s0, Bool.not_false, Bool.and_true, field_state,
      Nat.testBit_to_div_mod]
    rw [decide_eq_decide]
    norm_num
  · simp only [pwr_s1, field_state, Nat.testBit_to_div_mod]
    rw [decide_eq_decide]
    norm_num
    omega

/-- C5 counterexample: the claim says the Clock Reconfiguration Port's ready
field resets to 1, but `CSRStatus()` is declared without a reset argument,
so the register comes out of power-on reset at 0, not 1. -/
theorem c5_counterexample_drdy_resets_low : ¬ mmcm_drdy_reset = true := by
  decide

/-- C5 (amended): the `_mmcm_drdy` status register has reset value 0: it
reads 0 after power-on and keeps reading 0 until the underlying MMCM
reconfiguration port first reports a completion. -/
theorem c5_drdy_reset_value :
    mmcm_drdy_reset = false ∧
    ∀ l : List (Bool × Bool), (∀ p ∈ l, p.2 = false) →
      drdy_run mmcm_drdy_reset l = false := by
  refine ⟨rfl, fun l h => ?_⟩
  exact drdy_run_no_completion l h

/-- C5 witness: concrete run of three completion-free cycles from reset. -/
theorem c5_drdy_reset_value_witness :
    drdy_run mmcm_drdy_reset [(false, false), (true, false), (false, false)] = false := by
  exact (c5_drdy_reset_value.2 [(false, false), (true, false), (false, false)]
    (by decide))

/-- C6: a request strobe clears the ready register at the end of that cycle,
with priority over a simultaneous MMCM completion; a completion with no new
strobe sets ready exactly one cycle later; and after a strobe, ready stays 0
through every following cycle that brings no completion. -/
theorem c6_drdy_handshake :
    (∀ d m : Bool, drdy_step d true m = false) ∧
    (∀ d : Bool, drdy_step d false true = true) ∧
    (∀ (d m : Bool) (l : List (Bool × Bool)), (∀ p ∈ l, p.2 = false) →
      drdy_run d ((true, m) :: l) = false) := by
  refine ⟨by decide, by decide, fun d m l h => ?_⟩
  have hstep : drdy_step d true m = false := by cases d <;> cases m <;> rfl
  show drdy_run (drdy_step d true m) l = false
  rw [hstep]
  exact drdy_run_no_completion l h

/-- C6 witness: a strobe coinciding with a completion clears ready, and it
stays low over two further completion-free cycles. -/
theorem c6_drdy_handshake_witness :
    drdy_run true ((true, true) :: [(false, false), (false, false)]) = false := by
  exact c6_drdy_handshake.2.2 true true [(false, false), (false, false)] (by decide)

/-- C7: whenever the PLL lock signal is low, both the `sys` and `spi` clock
domains are held in reset, regardless of the rest of the reset network; the
domain resets are functions of `rst` and `pll_locked` only, so no software
register write can override this. -/
theorem c7_unlock_holds_domains_in_reset :
    ∀ rst : Bool, cd_sys_rst rst false = true ∧ cd_spi_rst rst false = true := by
  decide

/-- C2: a 0→1 transition of the synchronized trigger sets the pending flag;
the flag then stays set through any further trigger activity as long as no
software clear is issued; reads of the pending bit return it without
touching the state; and a single 0→1→0 pulse held high for n ≥ 1 cycles
produces exactly one pending assertion, however many cycles it is held. -/
theorem c2_rising_pulse_semantics :
    (∀ s : PulseSource, s.last = false → (pulse_step s true false).pending = true) ∧
    (∀ (s : PulseSource) (trig : Bool), s.pending = true →
      (pulse_step s trig false).pending = true) ∧
    (∀ s : PulseSource, pulse_read s = (s.pending, s)) ∧
    (∀ a n b : Nat, 1 ≤ n →
      pulse_setCount pulse_init
        (List.replicate a false ++ (List.replicate n true ++ List.replicate b false)) = 1) := by
  refine ⟨?_, ?_, fun s => rfl, ?_⟩
  · intro s h
    simp [pulse_step, h]
  · intro s trig h
    simp [pulse_step, h]
  · intro a n b hn
    obtain ⟨m, rfl⟩ : ∃ m, n = m + 1 := ⟨n - 1, by omega⟩
    show pulse_setCount ⟨false, false⟩ _ = 1
    rw [pulse_setCount_leading_low]
    rw [List.replicate_succ, List.cons_append]
    have hstep : pulse_step ⟨false, false⟩ true false = ⟨true, true⟩ := by
      simp [pulse_step]
    simp only [pulse_setCount, hstep]
    rw [pulse_setCount_high_while_pending, pulse_setCount_pending_tail_low]
    decide

/-- C2 witness: a rising edge from the idle state sets pending, and a pulse
low for 1 cycle, high for 3, low for 2 yields exactly one assertion. -/
theorem c2_rising_pulse_semantics_witness :
    (pulse_step ⟨false, false⟩ true false).pending = true ∧
    pulse_setCount pulse_init
      (List.replicate 1 false ++ (List.replicate 3 true ++ List.replicate 2 false)) = 1 :=
  ⟨c2_rising_pulse_semantics.1 ⟨false, false⟩ rfl,
   c2_rising_pulse_semantics.2.2.2 1 3 2 (by decide)⟩

/-- C8: a CPU read of the Power register has no side effect on the stored
value, and a write of any 8-bit value V, followed by any number of reads,
reads back exactly V: no hardware process touches the stored value. -/
theorem c8_power_write_then_read :
    (∀ t : Nat, power_apply t .read = t) ∧
    (∀ s V n : Nat, V < 2 ^ 8 →
      power_readback (power_run (power_apply s (.write V)) (List.replicate n .read)) = V) := by
  refine ⟨fun t => rfl, fun s V n hV => ?_⟩
  have hV' : V < 256 := by
    norm_num at hV
    exact hV
  simp [power_apply, power_run_reads, power_readback, Nat.mod_eq_of_lt hV']

/-- C8 witness: writing 0x5A over a register holding 3 and reading twice
returns 0x5A. -/
theorem c8_power_write_then_read_witness :
    power_readback (power_run (power_apply 3 (.write 0x5A)) (List.replicate 2 .read)) = 0x5A :=
  c8_power_write_then_read.2 3 0x5A 2 (by decide)

/-- C9: the `com_irq` and `rtc_irq` event triggers and the GPIO `input`
status field are the outputs of two-stage synchronizers on the raw pins: at
cycle t+2 they equal the raw value sampled at cycle t (for GPIO, the whole
previously sampled pin vector — never a torn mix), and at cycles 0 and 1
they are untouched by any input at all, so no raw change is observable
earlier than two bus-clock cycles after it happens. -/
theorem c9_synchronized_inputs :
    (∀ (init : Sync2 Bool) (com : Nat → Bool) (t : Nat),
      com_int_trigger init com (t + 2) = com t) ∧
    (∀ (init : Sync2 Bool) (rtc : Nat → Bool) (t : Nat),
      rtc_int_trigger init rtc (t + 2) = rtc t) ∧
    (∀ (init : Sync2 Nat) (pins : Nat → Nat) (t : Nat),
      gpio_input_status_trace init pins (t + 2) = pins t) ∧
    (∀ (init : Sync2 Bool) (f g : Nat → Bool),
      com_int_trigger init f 0 = com_int_trigger init g 0 ∧
      com_int_trigger init f 1 = com_int_trigger init g 1) :=
  ⟨fun _ _ _ => rfl, fun _ _ _ => rfl, fun _ _ _ => rfl, fun _ _ _ => ⟨rfl, rfl⟩⟩

/-- C10: in every reachable GPIO state the `intena` and `intpol` status
registers read 0, neither pin activity nor CPU writes ever change them, and
therefore every per-bit event trigger equals the synchronized input bit
itself (the XOR with `intpol` is the identity). -/
theorem c10_gpio_int_registers_inert :
    ∀ s : GpioState, GpioReachable s →
      s.intena_status = 0 ∧ s.intpol_status = 0 ∧
      (∀ i : Nat, gpio_trigger s i = s.input_status.testBit i) ∧
      (∀ (pins : Nat) (op : GpioOp),
        (gpio_step s pins op).intena_status = s.intena_status ∧
        (gpio_step s pins op).intpol_status = s.intpol_status) := by
  have hstep : ∀ (s : GpioState) (pins : Nat) (op : GpioOp),
      (gpio_step s pins op).intena_status = s.intena_status ∧
      (gpio_step s pins op).intpol_status = s.intpol_status := by
    intro s pins op
    cases op <;> exact ⟨rfl, rfl⟩
  intro s hs
  induction hs with
  | init =>
    refine ⟨rfl, rfl, fun i => ?_, fun pins op => hstep _ _ _⟩
    simp [gpio_trigger, gpio_init, Nat.zero_testBit]
  | step s' pins op hs' ih =>
    obtain ⟨hena, hpol, _, _⟩ := ih
    refine ⟨(hstep s' pins op).1.trans hena, (hstep s' pins op).2.trans hpol,
      fun i => ?_, fun p o => hstep _ _ _⟩
    simp [gpio_trigger, (hstep s' pins op).2.trans hpol, Nat.zero_testBit]

/-- C10 witness: after one cycle in which the CPU attempts to write 7 into
`intpol` while the pins read 5, `intpol` still reads 0 and the bit-0 trigger
still equals the synchronized input bit. -/
theorem c10_gpio_int_registers_inert_witness :
    GpioReachable (gpio_step gpio_init 5 (.write_intpol 7)) ∧
    (gpio_step gpio_init 5 (.write_intpol 7)).intpol_status = 0 ∧
    gpio_trigger (gpio_step gpio_init 5 (.write_intpol 7)) 0
      = (gpio_step gpio_init 5 (.write_intpol 7)).input_status.testBit 0 :=
  have hr : GpioReachable (gpio_step gpio_init 5 (.write_intpol 7)) :=
    GpioReachable.step gpio_init 5 (.write_intpol 7) GpioReachable.init
  have h := c10_gpio_int_registers_inert _ hr
  ⟨hr, h.2.1, h.2.2.1 0⟩

end BetrustedSoC
